import Mathlib

/-!
Verification of the dynamic angular-detectors provider cache core
(package `angulardetectorsprovider`) and the export `commitHelper`.

The Go code is shallowly embedded: each Go function becomes a Lean
function over explicit state; external collaborators (the remote
fetcher result, the durable store, the filesystem and git worktree)
are passed in as oracles so that every control-flow branch of the
source is represented.
-/

namespace AngularProvider

/-- An opaque compiled detector (`angulardetector.AngularDetector`).
Only its identity matters to the cache core. -/
structure AngularDetector where
  id : String
  deriving DecidableEq, Repr

/-- Error classification for `GCOMPattern.angularDetector()`:
`unknownPatternType` models `errUnknownPatternType`; `other` models any
other compilation error with its message. -/
inductive GCOMError where
  | unknownPatternType
  | other (msg : String)
  deriving DecidableEq, Repr

instance exceptGCOMDecEq : DecidableEq (Except GCOMError AngularDetector) := fun x y =>
  match x, y with
  | .ok a, .ok b => decidable_of_iff (a = b) (by simp)
  | .error a, .error b => decidable_of_iff (a = b) (by simp)
  | .ok _, .error _ => .isFalse (by simp)
  | .error _, .ok _ => .isFalse (by simp)

/-- One remote rule record (`GCOMPattern`). `name` and `ptype` are the
`Name` and `Type` fields. `compileResult` is the outcome of compiling
this record. -/
structure GCOMPattern where
  name : String
  ptype : String
  compileResult : Except GCOMError AngularDetector
  deriving DecidableEq, Repr

/-- Modelled from the spec: `GCOMPattern.angularDetector()` (the Rule
Compiler, §4.2) is repository code not present in the provided sources;
per its contract it returns either a Detector or an error tagged
UnknownKind / other, which the record carries as `compileResult`. -/
def GCOMPattern.angularDetector (p : GCOMPattern) : Except GCOMError AngularDetector :=
  p.compileResult

/-- The loop body of `patternsToDetectors` (lines 76-89): walks the
patterns accumulating `detectors` and the joined `finalErr`.  On an
`errUnknownPatternType` error the record is skipped (`continue`); on any
other error the message is joined into `finalErr` and the (nil) detector
value is still appended, exactly as the Go code falls through to
`append`.  A `none` entry models Go's nil `AngularDetector` value. -/
def convertLoop : List GCOMPattern → List (Option AngularDetector) → List String →
    List (Option AngularDetector) × List String
  | [], detectors, finalErr => (detectors, finalErr)
  | p :: ps, detectors, finalErr =>
    match p.angularDetector with
    | .error .unknownPatternType => convertLoop ps detectors finalErr
    | .error (.other m) => convertLoop ps (detectors ++ [none]) (finalErr ++ [m])
    | .ok ad => convertLoop ps (detectors ++ [some ad]) finalErr

/-- `(*Dynamic).patternsToDetectors` (lines 73-94): runs the loop, and
returns `nil, finalErr` when `finalErr != nil`, else the detectors.
An empty error list models Go's nil joined error. -/
def patternsToDetectors (patterns : List GCOMPattern) :
    Except (List String) (List (Option AngularDetector)) :=
  match convertLoop patterns [] [] with
  | (detectors, finalErr) => if finalErr = [] then .ok detectors else .error finalErr

/-- The per-record contribution of the loop to the detectors list:
`none` is skipped (unknown kind), an `other` error contributes the nil
detector, success contributes the compiled detector. -/
def stepResults (ps : List GCOMPattern) : List (Option AngularDetector) :=
  ps.filterMap fun p =>
    match p.angularDetector with
    | .ok d => some (some d)
    | .error .unknownPatternType => none
    | .error (.other _) => some none

/-- All non-UnknownKind compilation error messages of a rule set, in
record order: the contents of the joined `finalErr`. -/
def nonUnknownErrs (ps : List GCOMPattern) : List String :=
  ps.filterMap fun p =>
    match p.angularDetector with
    | .error (.other m) => some m
    | _ => none

theorem convertLoop_spec (ps : List GCOMPattern) (acc : List (Option AngularDetector))
    (errAcc : List String) :
    convertLoop ps acc errAcc = (acc ++ stepResults ps, errAcc ++ nonUnknownErrs ps) := by
  induction ps generalizing acc errAcc with
  | nil => simp [convertLoop, stepResults, nonUnknownErrs]
  | cons p ps ih =>
    cases hres : p.angularDetector with
    | ok d =>
      simp [convertLoop, hres, ih, stepResults, nonUnknownErrs, List.filterMap_cons]
    | error e =>
      cases e with
      | unknownPatternType =>
        simp [convertLoop, hres, ih, stepResults, nonUnknownErrs, List.filterMap_cons]
      | other m =>
        simp [convertLoop, hres, ih, stepResults, nonUnknownErrs, List.filterMap_cons]

theorem patternsToDetectors_eq (ps : List GCOMPattern) :
    patternsToDetectors ps =
      if nonUnknownErrs ps = [] then .ok (stepResults ps) else .error (nonUnknownErrs ps) := by
  simp [patternsToDetectors, convertLoop_spec]

/-- The mutable state of a `Dynamic` instance together with the durable
store it owns: `storeValue` is the rule set last persisted with
`store.Set` (`none` when the store holds no value), `detectors` is the
in-memory cached snapshot (`d.detectors`). -/
structure DynamicState where
  storeValue : Option (List GCOMPattern)
  detectors : List (Option AngularDetector)
  deriving DecidableEq, Repr

/-- The state of a freshly constructed `Dynamic` (`ProvideDynamic`
before any restore): the Go zero value of the `detectors` slice is nil,
i.e. the empty sequence. -/
def newDynamic : DynamicState :=
  ⟨none, []⟩

/-- `(*Dynamic).ProvideDetectors` (lines 236-241): takes the read lock
and returns the cached `d.detectors` unchanged; it has no error result. -/
def ProvideDetectors (s : DynamicState) : List (Option AngularDetector) :=
  s.detectors

/-- External outcomes one refresh cycle can observe: the result of the
GCOM fetch, and the result of `store.Set` for a given rule set (`none`
means success). The store is atomic per the §5 resource policy, so a
failed `Set` leaves the stored value untouched. -/
structure UpdateEnv where
  fetchResult : Except String (List GCOMPattern)
  storeSetResult : List GCOMPattern → Option String

/-- `(*Dynamic).updateDetectors` (lines 130-153): under the exclusive
lock, fetch, convert, persist, and only then swap the cached detectors.
Each failure returns the stage-wrapped error with the state untouched. -/
def updateDetectors (env : UpdateEnv) (s : DynamicState) :
    Except String Unit × DynamicState :=
  match env.fetchResult with
  | .error e => (.error ("fetch: " ++ e), s)
  | .ok patterns =>
    match patternsToDetectors patterns with
    | .error errs =>
      (.error ("patterns convert to detectors: " ++ String.intercalate "\n" errs), s)
    | .ok newDetectors =>
      match env.storeSetResult patterns with
      | some e => (.error ("store set: " ++ e), s)
      | none => (.ok (), ⟨some patterns, newDetectors⟩)

/-- External outcomes startup restore can observe: the triple returned
by `store.Get` (raw value, presence flag, error) and the result of
`json.Unmarshal` on a raw value. -/
structure RestoreEnv where
  storeGet : String × Bool × Option String
  jsonUnmarshal : String → Except String (List GCOMPattern)

/-- `(*Dynamic).setDetectorsFromCache` (lines 157-180): under the
exclusive lock, read the store; `if !ok` return nil with no change;
then check the read error; then unmarshal, convert and swap. -/
def setDetectorsFromCache (env : RestoreEnv) (s : DynamicState) :
    Except String Unit × DynamicState :=
  match env.storeGet with
  | (rawCached, ok, err) =>
    if !ok then (.ok (), s)
    else
      match err with
      | some e => (.error ("get cached value: " ++ e), s)
      | none =>
        match env.jsonUnmarshal rawCached with
        | .error e => (.error ("json unmarshal: " ++ e), s)
        | .ok cachedPatterns =>
          match patternsToDetectors cachedPatterns with
          | .error errs =>
            (.error ("convert to detectors: " ++ String.intercalate "\n" errs), s)
          | .ok cachedDetectors => (.ok (), ⟨s.storeValue, cachedDetectors⟩)

/-- How the first firing of the background loop is scheduled in `Run`
(lines 196-212): immediately through the buffered `firstTick` channel,
or after waiting `nextRunUntil` on the reset ticker. -/
inductive FirstFire where
  | immediate
  | after (delay : Int)
  deriving DecidableEq, Repr

/-- The initial-delay decision of `Run`: `nextRunUntil` is
`time.Until(lastUpdate.Add(backgroundJobInterval))`, i.e.
`lastUpdate + interval - now`; when it is `<= 0` the first run happens
immediately, otherwise after `nextRunUntil`. Times are integers in an
arbitrary fixed unit. -/
def runFirstFire (lastUpdate interval now : Int) : FirstFire :=
  let nextRunUntil := lastUpdate + interval - now
  if nextRunUntil ≤ 0 then .immediate else .after nextRunUntil

/-- One event observed by the `for`/`select` loop of `Run` (lines
215-232): either the tick channel fires (carrying the external outcomes
the triggered refresh cycle will observe), or the context is cancelled
with `ctx.Err()` equal to `reason`. -/
inductive LoopEvent where
  | tick (env : UpdateEnv)
  | cancel (reason : String)

/-- Whether a loop event is a ticker firing. -/
def LoopEvent.isTick : LoopEvent → Bool
  | .tick _ => true
  | .cancel _ => false

/-- The observable outcome of running the scheduler loop over a finite
event sequence: the waits programmed on the ticker after each firing,
the result of every refresh cycle attempted, the returned error (`none`
while the loop is still running), and the final cache state. -/
structure LoopResult where
  waits : List Int
  cycles : List (Except String Unit)
  ret : Option String
  final : DynamicState
  deriving Repr

/-- The `for`/`select` loop of `Run` (lines 215-232): a tick runs
`updateDetectors`, logs (discards) its error, resets the ticker to the
fixed `backgroundJobInterval` and continues; `ctx.Done()` returns
`ctx.Err()` at once. An exhausted event list means the loop is still
waiting, not returned. -/
def runLoop (interval : Int) (s : DynamicState) : List LoopEvent → LoopResult
  | [] => ⟨[], [], none, s⟩
  | .tick env :: rest =>
    let res := updateDetectors env s
    let lr := runLoop interval res.2 rest
    ⟨interval :: lr.waits, res.1 :: lr.cycles, lr.ret, lr.final⟩
  | .cancel reason :: _ => ⟨[], [], some reason, s⟩

/-- External outcomes `Run` observes: the `store.GetLastUpdated` result,
the current time at entry, and the loop's event sequence. -/
structure RunEnv where
  getLastUpdated : Except String Int
  now : Int
  events : List LoopEvent

/-- The observable outcome of one `Run` call: the cycles attempted, the
ticker waits, the returned error (`none` while still looping), the
first-firing decision (`none` when the loop never started), and the
final cache state. -/
structure RunResult where
  cycles : List (Except String Unit)
  waits : List Int
  ret : Option String
  firstFire : Option FirstFire
  final : DynamicState

/-- `(*Dynamic).Run` (lines 188-233): read `LastUpdated`; a failure is
returned wrapped before any scheduling; otherwise decide the first
firing from `nextRunUntil` and enter the loop. -/
def Run (env : RunEnv) (interval : Int) (s : DynamicState) : RunResult :=
  match env.getLastUpdated with
  | .error e => ⟨[], [], some ("get last updated: " ++ e), none, s⟩
  | .ok lastUpdate =>
    let lr := runLoop interval s env.events
    ⟨lr.cycles, lr.waits, lr.ret, some (runFirstFire lastUpdate interval env.now), lr.final⟩

/-! ### Interleaving model of the reader/writer lock discipline

`d.mux` is a `sync.RWMutex`: readers (`ProvideDetectors`) take shared
access, and `updateDetectors` takes exclusive access as its very first
statement (line 132), before the fetch, releasing it by `defer` on
return. The model below makes each stage of the refresh cycle a step of
a transition relation; the lock is woven into the state, so the
interleavings allowed by the relation are exactly those the mutex
allows. -/

/-- The state of the `sync.RWMutex` `d.mux`: free, held by `n` readers,
or held exclusively by the refresh path. -/
inductive LockState where
  | free
  | readers (n : Nat)
  | writer
  deriving DecidableEq, Repr

/-- The program counter of one `updateDetectors` call: `idle` (not in a
cycle), `fetching` (lock acquired at line 132, fetch in flight),
`compiledSt ps ds` (fetch returned `ps`, conversion produced `ds`,
`store.Set` not yet done), `persistedSt ps ds` (`store.Set` succeeded,
cached detectors not yet swapped). -/
inductive RStage where
  | idle
  | fetching
  | compiledSt (ps : List GCOMPattern) (ds : List (Option AngularDetector))
  | persistedSt (ps : List GCOMPattern) (ds : List (Option AngularDetector))
  deriving DecidableEq, Repr

/-- A refresh thread is mid-cycle (between its lock acquisition and its
deferred unlock). -/
def rInCycle (st : RStage) : Prop :=
  st ≠ .idle

instance (st : RStage) : Decidable (rInCycle st) := by
  unfold rInCycle; infer_instance

/-- The whole system: the lock, two potential refresh callers (to state
that cycles are serialized), and the cache-plus-store state. -/
structure SysState where
  lock : LockState
  r0 : RStage
  r1 : RStage
  cache : DynamicState

/-- The durable store and the in-memory snapshot agree: whatever rule
set the store holds is exactly the one whose (successful) conversion is
the cached snapshot. -/
def agreeStore (c : DynamicState) : Prop :=
  ∀ ps, c.storeValue = some ps → patternsToDetectors ps = .ok c.detectors

/-- The interleaving steps. Reader steps follow `ProvideDetectors`:
shared acquisition succeeds only when no writer holds the lock. Refresh
steps follow `updateDetectors` stage by stage: exclusive acquisition
requires the lock free; every early return (fetch error, conversion
error, `store.Set` error) releases the lock leaving the cache untouched;
a successful `store.Set` updates the store; the final step swaps the
snapshot and releases the lock. -/
inductive SysStep : SysState → SysState → Prop where
  | readAcquireFree (r0 r1 : RStage) (c : DynamicState) :
      SysStep ⟨.free, r0, r1, c⟩ ⟨.readers 1, r0, r1, c⟩
  | readAcquireMore (n : Nat) (r0 r1 : RStage) (c : DynamicState) :
      SysStep ⟨.readers n, r0, r1, c⟩ ⟨.readers (n + 1), r0, r1, c⟩
  | readReleaseLast (r0 r1 : RStage) (c : DynamicState) :
      SysStep ⟨.readers 1, r0, r1, c⟩ ⟨.free, r0, r1, c⟩
  | readReleaseSome (n : Nat) (r0 r1 : RStage) (c : DynamicState) :
      SysStep ⟨.readers (n + 2), r0, r1, c⟩ ⟨.readers (n + 1), r0, r1, c⟩
  | acquire0 (r1 : RStage) (c : DynamicState) :
      SysStep ⟨.free, .idle, r1, c⟩ ⟨.writer, .fetching, r1, c⟩
  | fetchFail0 (r1 : RStage) (c : DynamicState) :
      SysStep ⟨.writer, .fetching, r1, c⟩ ⟨.free, .idle, r1, c⟩
  | fetchCompileOk0 (r1 : RStage) (c : DynamicState) (ps : List GCOMPattern)
      (ds : List (Option AngularDetector)) (h : patternsToDetectors ps = .ok ds) :
      SysStep ⟨.writer, .fetching, r1, c⟩ ⟨.writer, .compiledSt ps ds, r1, c⟩
  | compileFail0 (r1 : RStage) (c : DynamicState) :
      SysStep ⟨.writer, .fetching, r1, c⟩ ⟨.free, .idle, r1, c⟩
  | persistOk0 (r1 : RStage) (c : DynamicState) (ps : List GCOMPattern)
      (ds : List (Option AngularDetector)) :
      SysStep ⟨.writer, .compiledSt ps ds, r1, c⟩
        ⟨.writer, .persistedSt ps ds, r1, ⟨some ps, c.detectors⟩⟩
  | persistFail0 (r1 : RStage) (c : DynamicState) (ps : List GCOMPattern)
      (ds : List (Option AngularDetector)) :
      SysStep ⟨.writer, .compiledSt ps ds, r1, c⟩ ⟨.free, .idle, r1, c⟩
  | swapRelease0 (r1 : RStage) (c : DynamicState) (ps : List GCOMPattern)
      (ds : List (Option AngularDetector)) :
      SysStep ⟨.writer, .persistedSt ps ds, r1, c⟩ ⟨.free, .idle, r1, ⟨c.storeValue, ds⟩⟩
  | acquire1 (r0 : RStage) (c : DynamicState) :
      SysStep ⟨.free, r0, .idle, c⟩ ⟨.writer, r0, .fetching, c⟩
  | fetchFail1 (r0 : RStage) (c : DynamicState) :
      SysStep ⟨.writer, r0, .fetching, c⟩ ⟨.free, r0, .idle, c⟩
  | fetchCompileOk1 (r0 : RStage) (c : DynamicState) (ps : List GCOMPattern)
      (ds : List (Option AngularDetector)) (h : patternsToDetectors ps = .ok ds) :
      SysStep ⟨.writer, r0, .fetching, c⟩ ⟨.writer, r0, .compiledSt ps ds, c⟩
  | compileFail1 (r0 : RStage) (c : DynamicState) :
      SysStep ⟨.writer, r0, .fetching, c⟩ ⟨.free, r0, .idle, c⟩
  | persistOk1 (r0 : RStage) (c : DynamicState) (ps : List GCOMPattern)
      (ds : List (Option AngularDetector)) :
      SysStep ⟨.writer, r0, .compiledSt ps ds, c⟩
        ⟨.writer, r0, .persistedSt ps ds, ⟨some ps, c.detectors⟩⟩
  | persistFail1 (r0 : RStage) (c : DynamicState) (ps : List GCOMPattern)
      (ds : List (Option AngularDetector)) :
      SysStep ⟨.writer, r0, .compiledSt ps ds, c⟩ ⟨.free, r0, .idle, c⟩
  | swapRelease1 (r0 : RStage) (c : DynamicState) (ps : List GCOMPattern)
      (ds : List (Option AngularDetector)) :
      SysStep ⟨.writer, r0, .persistedSt ps ds, c⟩ ⟨.free, r0, .idle, ⟨c.storeValue, ds⟩⟩

/-- The initial system state: lock free, no cycle running, fresh cache. -/
def initSys : SysState :=
  ⟨.free, .idle, .idle, newDynamic⟩

/-- States reachable by interleaving reader and refresh steps. -/
def SysReachable (s : SysState) : Prop :=
  Relation.ReflTransGen SysStep initSys s

/-- What must hold of the cache at each stage of a refresh cycle:
before `store.Set` the cache is still the old agreeing pair and the
pending conversion is known good; after `store.Set` the store holds the
new rule set whose conversion is the pending snapshot. -/
def stageOk (st : RStage) (c : DynamicState) : Prop :=
  match st with
  | .idle => True
  | .fetching => agreeStore c
  | .compiledSt ps ds => agreeStore c ∧ patternsToDetectors ps = .ok ds
  | .persistedSt ps ds => c.storeValue = some ps ∧ patternsToDetectors ps = .ok ds

/-- The inductive invariant: a mid-cycle refresh holds the writer lock
and excludes the other refresh thread; each thread's stage condition
holds; and outside any cycle the store and the snapshot agree. -/
def SysInv (s : SysState) : Prop :=
  (rInCycle s.r0 → s.lock = .writer ∧ s.r1 = .idle) ∧
  (rInCycle s.r1 → s.lock = .writer ∧ s.r0 = .idle) ∧
  stageOk s.r0 s.cache ∧ stageOk s.r1 s.cache ∧
  (s.r0 = .idle → s.r1 = .idle → agreeStore s.cache)

theorem sysInv_init : SysInv initSys := by
  refine ⟨?_, ?_, trivial, trivial, ?_⟩
  · intro h; exact absurd rfl h
  · intro h; exact absurd rfl h
  · intro _ _ ps hps; simp [initSys, newDynamic] at hps

theorem sysInv_step {s t : SysState} (hst : SysStep s t) (hinv : SysInv s) : SysInv t := by
  obtain ⟨h0, h1, hs0, hs1, hagree⟩ := hinv
  cases hst with
  | readAcquireFree r0 r1 c =>
    have hr0 : r0 = .idle := by
      by_contra hc
      exact absurd (h0 hc).1 (by simp)
    have hr1 : r1 = .idle := by
      by_contra hc
      exact absurd (h1 hc).1 (by simp)
    subst hr0; subst hr1
    exact ⟨fun h => absurd rfl h, fun h => absurd rfl h, trivial, trivial, hagree⟩
  | readAcquireMore n r0 r1 c =>
    have hr0 : r0 = .idle := by
      by_contra hc
      exact absurd (h0 hc).1 (by simp)
    have hr1 : r1 = .idle := by
      by_contra hc
      exact absurd (h1 hc).1 (by simp)
    subst hr0; subst hr1
    exact ⟨fun h => absurd rfl h, fun h => absurd rfl h, trivial, trivial, hagree⟩
  | readReleaseLast r0 r1 c =>
    have hr0 : r0 = .idle := by
      by_contra hc
      exact absurd (h0 hc).1 (by simp)
    have hr1 : r1 = .idle := by
      by_contra hc
      exact absurd (h1 hc).1 (by simp)
    subst hr0; subst hr1
    exact ⟨fun h => absurd rfl h, fun h => absurd rfl h, trivial, trivial, hagree⟩
  | readReleaseSome n r0 r1 c =>
    have hr0 : r0 = .idle := by
      by_contra hc
      exact absurd (h0 hc).1 (by simp)
    have hr1 : r1 = .idle := by
      by_contra hc
      exact absurd (h1 hc).1 (by simp)
    subst hr0; subst hr1
    exact ⟨fun h => absurd rfl h, fun h => absurd rfl h, trivial, trivial, hagree⟩
  | acquire0 r1 c =>
    have hr1 : r1 = .idle := by
      by_contra hc
      exact absurd (h1 hc).1 (by simp)
    subst hr1
    refine ⟨fun _ => ⟨rfl, rfl⟩, fun h => absurd rfl h, ?_, trivial, ?_⟩
    · exact hagree rfl rfl
    · intro h; exact absurd h (by simp)
  | fetchFail0 r1 c =>
    have hr1 : r1 = .idle := (h0 (by simp [rInCycle])).2
    subst hr1
    exact ⟨fun h => absurd rfl h, fun h => absurd rfl h, trivial, trivial, fun _ _ => hs0⟩
  | fetchCompileOk0 r1 c ps ds h =>
    have hr1 : r1 = .idle := (h0 (by simp [rInCycle])).2
    subst hr1
    refine ⟨fun _ => ⟨rfl, rfl⟩, fun hh => absurd rfl hh, ⟨hs0, h⟩, trivial, ?_⟩
    intro hh; exact absurd hh (by simp)
  | compileFail0 r1 c =>
    have hr1 : r1 = .idle := (h0 (by simp [rInCycle])).2
    subst hr1
    exact ⟨fun h => absurd rfl h, fun h => absurd rfl h, trivial, trivial, fun _ _ => hs0⟩
  | persistOk0 r1 c ps ds =>
    have hr1 : r1 = .idle := (h0 (by simp [rInCycle])).2
    subst hr1
    refine ⟨fun _ => ⟨rfl, rfl⟩, fun hh => absurd rfl hh, ⟨rfl, hs0.2⟩, trivial, ?_⟩
    intro hh; exact absurd hh (by simp)
  | persistFail0 r1 c ps ds =>
    have hr1 : r1 = .idle := (h0 (by simp [rInCycle])).2
    subst hr1
    exact ⟨fun h => absurd rfl h, fun h => absurd rfl h, trivial, trivial, fun _ _ => hs0.1⟩
  | swapRelease0 r1 c ps ds =>
    have hr1 : r1 = .idle := (h0 (by simp [rInCycle])).2
    subst hr1
    refine ⟨fun h => absurd rfl h, fun h => absurd rfl h, trivial, trivial, ?_⟩
    intro _ _ qs hqs
    have hsv : c.storeValue = some ps := hs0.1
    rw [hsv] at hqs
    cases hqs
    exact hs0.2
  | acquire1 r0 c =>
    have hr0 : r0 = .idle := by
      by_contra hc
      exact absurd (h0 hc).1 (by simp)
    subst hr0
    refine ⟨fun h => absurd rfl h, fun _ => ⟨rfl, rfl⟩, trivial, ?_, ?_⟩
    · exact hagree rfl rfl
    · intro _ h; exact absurd h (by simp)
  | fetchFail1 r0 c =>
    have hr0 : r0 = .idle := (h1 (by simp [rInCycle])).2
    subst hr0
    exact ⟨fun h => absurd rfl h, fun h => absurd rfl h, trivial, trivial, fun _ _ => hs1⟩
  | fetchCompileOk1 r0 c ps ds h =>
    have hr0 : r0 = .idle := (h1 (by simp [rInCycle])).2
    subst hr0
    refine ⟨fun hh => absurd rfl hh, fun _ => ⟨rfl, rfl⟩, trivial, ⟨hs1, h⟩, ?_⟩
    intro _ hh; exact absurd hh (by simp)
  | compileFail1 r0 c =>
    have hr0 : r0 = .idle := (h1 (by simp [rInCycle])).2
    subst hr0
    exact ⟨fun h => absurd rfl h, fun h => absurd rfl h, trivial, trivial, fun _ _ => hs1⟩
  | persistOk1 r0 c ps ds =>
    have hr0 : r0 = .idle := (h1 (by simp [rInCycle])).2
    subst hr0
    refine ⟨fun hh => absurd rfl hh, fun _ => ⟨rfl, rfl⟩, trivial, ⟨rfl, hs1.2⟩, ?_⟩
    intro _ hh; exact absurd hh (by simp)
  | persistFail1 r0 c ps ds =>
    have hr0 : r0 = .idle := (h1 (by simp [rInCycle])).2
    subst hr0
    exact ⟨fun h => absurd rfl h, fun h => absurd rfl h, trivial, trivial, fun _ _ => hs1.1⟩
  | swapRelease1 r0 c ps ds =>
    have hr0 : r0 = .idle := (h1 (by simp [rInCycle])).2
    subst hr0
    refine ⟨fun h => absurd rfl h, fun h => absurd rfl h, trivial, trivial, ?_⟩
    intro _ _ qs hqs
    have hsv : c.storeValue = some ps := hs1.1
    rw [hsv] at hqs
    cases hqs
    exact hs1.2

theorem sysInv_reachable {s : SysState} (h : SysReachable s) : SysInv s := by
  induction h with
  | refl => exact sysInv_init
  | tail _ hstep ih => exact sysInv_step hstep ih

end AngularProvider

namespace ExportHelper

/-- `userInfo`: only the fields `getAuthor` and the commit path read. -/
structure UserInfo where
  name : String
  login : String
  email : String
  deriving DecidableEq, Repr

/-- `object.Signature` as produced by `getAuthor` plus the `When`
override in `add`. -/
structure Signature where
  sigName : String
  sigEmail : String
  sigWhen : Int
  deriving DecidableEq, Repr

/-- `firstRealStringX`: the first non-empty string, else `"?"`. -/
def firstRealStringX (vals : List String) : String :=
  match vals with
  | [] => "?"
  | v :: rest => if v ≠ "" then v else firstRealStringX rest

/-- `(*userInfo).getAuthor`: name and email picked by
`firstRealStringX`; the `When` field starts at its zero value. -/
def getAuthor (u : UserInfo) : Signature :=
  ⟨firstRealStringX [u.name, u.login, u.email, "?"],
   firstRealStringX [u.email, u.login, u.name, "?"], 0⟩

/-- `commitBody`: an absolute file path and the file contents. -/
structure CommitBody where
  fpath : String
  body : String
  deriving DecidableEq, Repr

/-- `commitOptions`: the entries to write, the commit time (`When` as a
Unix timestamp), the author user id and the commit comment. -/
structure CommitOptions where
  body : List CommitBody
  whenUnix : Int
  userID : Int
  comment : String

/-- The fields of `commitHelper` that `add` reads: the org directory
all paths must live under, the worktree root used to relativize paths,
and the user lookup built by `initOrg`. -/
structure CommitHelper where
  orgDir : String
  workDir : String
  users : List (Int × UserInfo)

/-- The externally visible effects of `add`: the files written to disk
(in write order) and the commits made (comment and author signature). -/
structure FsState where
  written : List (String × String)
  commits : List (String × Signature)
  deriving Repr

/-- Outcomes of the external calls `add` makes: `os.MkdirAll`,
`ioutil.WriteFile`, `Worktree.Add`, `Worktree.Status` and
`Worktree.Commit`; `none` is success. -/
structure AddEnv where
  mkdirAll : String → Option String
  writeFile : String → String → Option String
  workAdd : String → Option String
  workStatus : Option String
  commit : String → Option String

/-- `strings.HasPrefix(s, pre)`: whether `s` begins with `pre`,
embedded over the character lists of the strings. -/
def hasPrefixStr (s pre : String) : Bool :=
  pre.data.isPrefixOf s.data

/-- The `for` loop of `add` (lines 63-88): per entry, reject a path
outside `ch.orgDir`; create the parent directory (`env.mkdirAll` is
indexed by the entry path, its parent being derived from it); write the
file; stage the worktree-relative path `sub`, with the two staging
failure messages depending on whether `ch.work.Status()` itself fails.
Any failure returns that error with the effects performed so far. -/
def addLoop (env : AddEnv) (ch : CommitHelper) :
    List CommitBody → FsState → Option String × FsState
  | [], fs => (none, fs)
  | b :: rest, fs =>
    if ¬ hasPrefixStr b.fpath ch.orgDir then
      (some "invalid path, must be within the root folder", fs)
    else
      match env.mkdirAll b.fpath with
      | some e => (some e, fs)
      | none =>
        match env.writeFile b.fpath b.body with
        | some e => (some e, fs)
        | none =>
          let fs1 : FsState := ⟨fs.written ++ [(b.fpath, b.body)], fs.commits⟩
          let sub := b.fpath.drop (ch.workDir.length + 1)
          match env.workAdd sub with
          | some _ =>
            match env.workStatus with
            | some e2 =>
              (some ("error adding: " ++ sub ++ " (invalud work status: " ++ e2 ++ ")"), fs1)
            | none => (some ("unable to add file: " ++ sub), fs1)
          | none => addLoop env ch rest fs1

/-- `(*commitHelper).add` (lines 62-108): run the write loop, then look
up the author (defaulting to the admin identity), override the
signature time when `opts.when.Unix() > 10`, and commit. -/
def add (env : AddEnv) (ch : CommitHelper) (opts : CommitOptions) (fs : FsState) :
    Option String × FsState :=
  match addLoop env ch opts.body fs with
  | (some e, fs1) => (some e, fs1)
  | (none, fs1) =>
    let user := (ch.users.lookup opts.userID).getD ⟨"admin", "", "admin@unknown.org"⟩
    let sig0 := getAuthor user
    let sig := if opts.whenUnix > 10 then
        Signature.mk sig0.sigName sig0.sigEmail opts.whenUnix
      else sig0
    match env.commit opts.comment with
    | some e => (some e, fs1)
    | none => (none, ⟨fs1.written, fs1.commits ++ [(opts.comment, sig)]⟩)

end ExportHelper

namespace AngularProvider

theorem stepResults_ok_length (l : List GCOMPattern)
    (h : ∀ q ∈ l, ∃ d, q.angularDetector = .ok d) :
    (stepResults l).length = l.length := by
  induction l with
  | nil => rfl
  | cons a t ih =>
    obtain ⟨d, hd⟩ := h a (List.mem_cons_self a t)
    have ht : (stepResults t).length = t.length :=
      ih fun q hq => h q (List.mem_cons_of_mem a hq)
    simp only [stepResults, List.filterMap_cons, hd] at ht ⊢
    simp [ht]

/-- C1: if the fetch and the conversion succeed but `store.Set` fails,
`updateDetectors` returns the wrapped store error and leaves the state
(both the store and the in-memory snapshot) exactly as before; and in
general every cycle either changes nothing or makes the store and the
snapshot both reflect the newly fetched rule set. -/
theorem updateDetectors_store_fail_atomic (env : UpdateEnv) (s : DynamicState)
    (ps : List GCOMPattern) (ds : List (Option AngularDetector)) (e : String)
    (hf : env.fetchResult = .ok ps) (hc : patternsToDetectors ps = .ok ds)
    (hs : env.storeSetResult ps = some e) :
    updateDetectors env s = (.error ("store set: " ++ e), s) ∧
    ∀ (env' : UpdateEnv) (s' : DynamicState),
      (updateDetectors env' s').2 = s' ∨
      ∃ qs, env'.fetchResult = .ok qs ∧
        (updateDetectors env' s').2.storeValue = some qs ∧
        patternsToDetectors qs = .ok (updateDetectors env' s').2.detectors ∧
        (updateDetectors env' s').1 = .ok () := by
  constructor
  · simp [updateDetectors, hf, hc, hs]
  · intro env' s'
    rcases hf' : env'.fetchResult with e' | qs
    · left; simp [updateDetectors, hf']
    · rcases hc' : patternsToDetectors qs with errs | ds'
      · left; simp [updateDetectors, hf', hc']
      · rcases hs' : env'.storeSetResult qs with _ | e'
        · right
          refine ⟨qs, rfl, ?_, ?_, ?_⟩
          · simp [updateDetectors, hf', hc', hs']
          · simp [updateDetectors, hf', hc', hs']
          · simp [updateDetectors, hf', hc', hs']
        · left; simp [updateDetectors, hf', hc', hs']

theorem updateDetectors_store_fail_atomic_witness :
    updateDetectors ⟨.ok [], fun _ => some "disk full"⟩ newDynamic
      = (.error ("store set: " ++ "disk full"), newDynamic) :=
  (updateDetectors_store_fail_atomic ⟨.ok [], fun _ => some "disk full"⟩
    newDynamic [] [] "disk full" rfl rfl rfl).1

/-- C2: if some record compiles with a non-UnknownKind error, the batch
conversion returns no detector list, only the joined error, and that
error lists every non-UnknownKind failure of the whole batch (no
short-circuit at the first one). -/
theorem patternsToDetectors_fatal_batch (ps : List GCOMPattern) (p : GCOMPattern)
    (m : String) (hp : p ∈ ps) (he : p.angularDetector = .error (.other m)) :
    patternsToDetectors ps = .error (nonUnknownErrs ps) ∧
    nonUnknownErrs ps ≠ [] ∧
    ∀ q m', q ∈ ps → q.angularDetector = .error (.other m') → m' ∈ nonUnknownErrs ps := by
  have hm : m ∈ nonUnknownErrs ps := by
    unfold nonUnknownErrs
    rw [List.mem_filterMap]
    exact ⟨p, hp, by rw [he]⟩
  have hne : nonUnknownErrs ps ≠ [] := List.ne_nil_of_mem hm
  refine ⟨?_, hne, ?_⟩
  · rw [patternsToDetectors_eq, if_neg hne]
  · intro q m' hq he'
    unfold nonUnknownErrs
    rw [List.mem_filterMap]
    exact ⟨q, hq, by rw [he']⟩

theorem patternsToDetectors_fatal_batch_witness :
    patternsToDetectors
        [⟨"a", "t", .error (.other "bad a")⟩, ⟨"b", "t", .ok ⟨"db"⟩⟩,
         ⟨"c", "t", .error (.other "bad c")⟩]
      = .error ["bad a", "bad c"] :=
  (patternsToDetectors_fatal_batch
    [⟨"a", "t", .error (.other "bad a")⟩, ⟨"b", "t", .ok ⟨"db"⟩⟩,
     ⟨"c", "t", .error (.other "bad c")⟩]
    ⟨"a", "t", .error (.other "bad a")⟩ "bad a" (by simp) rfl).1

/-- C3: a rule set made of one record of an unrecognized kind
(`errUnknownPatternType`) among records that all compile successfully
converts to exactly as many detectors as there are successful records,
with no error: the unknown record is skipped. -/
theorem patternsToDetectors_skips_unknown (pre post : List GCOMPattern)
    (u : GCOMPattern) (hu : u.angularDetector = .error .unknownPatternType)
    (hok : ∀ q ∈ pre ++ post, ∃ d, q.angularDetector = .ok d) :
    patternsToDetectors (pre ++ u :: post) = .ok (stepResults (pre ++ post)) ∧
    (stepResults (pre ++ post)).length = pre.length + post.length := by
  have herr : nonUnknownErrs (pre ++ u :: post) = [] := by
    unfold nonUnknownErrs
    rw [List.filterMap_eq_nil_iff]
    intro q hq
    rcases List.mem_append.mp hq with hq1 | hq2
    · obtain ⟨d, hd⟩ := hok q (List.mem_append.mpr (Or.inl hq1))
      rw [hd]
    · rcases List.mem_cons.mp hq2 with rfl | hq3
      · rw [hu]
      · obtain ⟨d, hd⟩ := hok q (List.mem_append.mpr (Or.inr hq3))
        rw [hd]
  have hstep : stepResults (pre ++ u :: post) = stepResults (pre ++ post) := by
    simp [stepResults, List.filterMap_append, List.filterMap_cons, hu]
  constructor
  · rw [patternsToDetectors_eq, herr, hstep]
    simp
  · have hlen := stepResults_ok_length (pre ++ post) hok
    simpa using hlen

theorem patternsToDetectors_skips_unknown_witness :
    patternsToDetectors
        [⟨"a", "t", .ok ⟨"da"⟩⟩, ⟨"u", "new", .error .unknownPatternType⟩,
         ⟨"b", "t", .ok ⟨"db"⟩⟩]
      = .ok (stepResults [⟨"a", "t", .ok ⟨"da"⟩⟩, ⟨"b", "t", .ok ⟨"db"⟩⟩]) ∧
    (stepResults [⟨"a", "t", .ok ⟨"da"⟩⟩, ⟨"b", "t", .ok ⟨"db"⟩⟩]).length = 2 :=
  patternsToDetectors_skips_unknown
    [⟨"a", "t", .ok ⟨"da"⟩⟩] [⟨"b", "t", .ok ⟨"db"⟩⟩]
    ⟨"u", "new", .error .unknownPatternType⟩ rfl
    (by intro q hq
        rcases List.mem_cons.mp hq with rfl | hq2
        · exact ⟨⟨"da"⟩, rfl⟩
        · rcases List.mem_cons.mp hq2 with rfl | hq3
          · exact ⟨⟨"db"⟩, rfl⟩
          · simp at hq3)

/-- C4 counterexample: a store read that fails (`err` non-nil) while the
presence flag is false makes `setDetectorsFromCache` return success, not
a wrapped error — the `!ok` check precedes the error check. -/
theorem setDetectorsFromCache_ok_on_absent_error :
    setDetectorsFromCache ⟨("", false, some "boom"), fun _ => .error "nope"⟩ newDynamic
      = (.ok (), newDynamic) ∧
    (Except.ok () : Except String Unit) ≠ .error ("get cached value: " ++ "boom") :=
  ⟨rfl, by simp⟩

/-- C4 amended: when the store read fails with the presence flag true,
startup restore returns the wrapped read error and leaves the state
untouched; with the presence flag false it returns success regardless
of the read error. -/
theorem setDetectorsFromCache_wrapped_error (env : RestoreEnv) (s : DynamicState)
    (raw : String) (e : String) :
    (env.storeGet = (raw, true, some e) →
      setDetectorsFromCache env s = (.error ("get cached value: " ++ e), s)) ∧
    (env.storeGet = (raw, false, some e) →
      setDetectorsFromCache env s = (.ok (), s)) := by
  constructor
  · intro h; simp [setDetectorsFromCache, h]
  · intro h; simp [setDetectorsFromCache, h]

theorem setDetectorsFromCache_wrapped_error_witness :
    setDetectorsFromCache ⟨("raw", true, some "io fail"), fun _ => .error "nope"⟩ newDynamic
      = (.error ("get cached value: " ++ "io fail"), newDynamic) :=
  (setDetectorsFromCache_wrapped_error
    ⟨("raw", true, some "io fail"), fun _ => .error "nope"⟩ newDynamic "raw" "io fail").1 rfl

/-- C5: on scheduler start the first-firing delay is
`LastUpdated + interval − now`; when it is `≤ 0` the first refresh fires
immediately, otherwise only after waiting exactly that delay. -/
theorem run_first_fire_delay (env : RunEnv) (interval : Int) (s : DynamicState)
    (lastUpdate : Int) (h : env.getLastUpdated = .ok lastUpdate) :
    (lastUpdate + interval - env.now ≤ 0 →
      (Run env interval s).firstFire = some .immediate) ∧
    (0 < lastUpdate + interval - env.now →
      (Run env interval s).firstFire = some (.after (lastUpdate + interval - env.now))) := by
  constructor
  · intro hd
    simp [Run, h, runFirstFire, hd]
  · intro hd
    have hnot : ¬ lastUpdate + interval - env.now ≤ 0 := by omega
    simp [Run, h, runFirstFire, hnot]

theorem run_first_fire_delay_witness :
    (0 : Int) < 590 + 60 - 600 ∧
    (Run ⟨.ok 590, 600, []⟩ 60 newDynamic).firstFire = some (.after (590 + 60 - 600)) :=
  ⟨by decide,
   (run_first_fire_delay ⟨.ok 590, 600, []⟩ 60 newDynamic 590 rfl).2 (by decide)⟩

/-- C6: the scheduler loop never returns because a refresh cycle
failed — over any all-tick event sequence it is still running and has
programmed the fixed interval after every firing — and whenever it does
return a value, the events up to that point are ticks followed by the
cancellation, whose reason is the returned value: there is no other
exit path. -/
theorem runLoop_exits_only_on_cancel (interval : Int) (s : DynamicState)
    (events : List LoopEvent) :
    (events.all LoopEvent.isTick = true →
      (runLoop interval s events).ret = none ∧
      (runLoop interval s events).waits = List.replicate events.length interval) ∧
    (∀ r, (runLoop interval s events).ret = some r →
      ∃ front tail, events = front ++ LoopEvent.cancel r :: tail ∧
        front.all LoopEvent.isTick = true) := by
  induction events generalizing s with
  | nil =>
    refine ⟨fun _ => ⟨rfl, rfl⟩, fun r hr => ?_⟩
    simp [runLoop] at hr
  | cons e rest ih =>
    cases e with
    | tick envT =>
      refine ⟨fun hall => ?_, fun r hr => ?_⟩
      · simp only [List.all_cons, LoopEvent.isTick, Bool.true_and] at hall
        have hrest := (ih (updateDetectors envT s).2).1 hall
        refine ⟨?_, ?_⟩
        · simp [runLoop, hrest.1]
        · simp [runLoop, hrest.2, List.replicate_succ]
      · have hr' : (runLoop interval (updateDetectors envT s).2 rest).ret = some r := by
          simpa [runLoop] using hr
        obtain ⟨front, tl, hsplit, hfront⟩ := (ih (updateDetectors envT s).2).2 r hr'
        refine ⟨.tick envT :: front, tl, by rw [hsplit]; rfl, ?_⟩
        simp [List.all_cons, LoopEvent.isTick, hfront]
    | cancel c =>
      refine ⟨fun hall => ?_, fun r hr => ?_⟩
      · simp [List.all_cons, LoopEvent.isTick] at hall
      · have hc : c = r := by simpa [runLoop] using hr
        subst hc
        exact ⟨[], rest, rfl, rfl⟩

theorem runLoop_exits_only_on_cancel_witness :
    (runLoop 60 newDynamic
        [.tick ⟨.error "net down", fun _ => none⟩,
         .tick ⟨.error "net down", fun _ => none⟩,
         .tick ⟨.error "net down", fun _ => none⟩]).ret = none ∧
    (runLoop 60 newDynamic
        [.tick ⟨.error "net down", fun _ => none⟩,
         .tick ⟨.error "net down", fun _ => none⟩,
         .tick ⟨.error "net down", fun _ => none⟩]).waits = List.replicate 3 60 :=
  (runLoop_exits_only_on_cancel 60 newDynamic
    [.tick ⟨.error "net down", fun _ => none⟩,
     .tick ⟨.error "net down", fun _ => none⟩,
     .tick ⟨.error "net down", fun _ => none⟩]).1 rfl

/-- C8: a failing `store.GetLastUpdated` at scheduler start makes `Run`
return the wrapped error before the loop: no refresh cycle is attempted
and the state (store and snapshot) is unmodified. -/
theorem run_getLastUpdated_fatal (env : RunEnv) (interval : Int) (s : DynamicState)
    (e : String) (h : env.getLastUpdated = .error e) :
    Run env interval s = ⟨[], [], some ("get last updated: " ++ e), none, s⟩ := by
  simp [Run, h]

theorem run_getLastUpdated_fatal_witness :
    Run ⟨.error "db gone", 0, [.tick ⟨.ok [], fun _ => none⟩]⟩ 60 newDynamic
      = ⟨[], [], some ("get last updated: " ++ "db gone"), none, newDynamic⟩ :=
  run_getLastUpdated_fatal ⟨.error "db gone", 0, [.tick ⟨.ok [], fun _ => none⟩]⟩
    60 newDynamic "db gone" rfl

/-- C9: in every state reachable by interleaving readers and refresh
cycles under the `d.mux` discipline, no two refresh cycles are mid-cycle
at once; a mid-cycle refresh holds the lock exclusively (it acquired it
before its fetch and keeps it through persist and swap); and whenever
readers hold the lock the durable store and the in-memory snapshot
agree, so no read observes them diverged. -/
theorem refresh_lock_discipline (s : SysState) (h : SysReachable s) :
    (¬ (rInCycle s.r0 ∧ rInCycle s.r1)) ∧
    ((rInCycle s.r0 ∨ rInCycle s.r1) → s.lock = .writer) ∧
    (∀ n, s.lock = .readers n → agreeStore s.cache) := by
  obtain ⟨h0, h1, _, _, hagree⟩ := sysInv_reachable h
  refine ⟨?_, ?_, ?_⟩
  · rintro ⟨ha, hb⟩
    exact hb ((h0 ha).2)
  · rintro (ha | hb)
    · exact (h0 ha).1
    · exact (h1 hb).1
  · intro n hn
    have hr0 : s.r0 = .idle := by
      by_contra hc
      rw [(h0 hc).1] at hn
      cases hn
    have hr1 : s.r1 = .idle := by
      by_contra hc
      rw [(h1 hc).1] at hn
      cases hn
    exact hagree hr0 hr1

theorem refresh_lock_discipline_witness :
    ¬ (rInCycle initSys.r0 ∧ rInCycle initSys.r1) :=
  (refresh_lock_discipline initSys Relation.ReflTransGen.refl).1

/-- C7: `ProvideDetectors` on a freshly constructed, never-populated
cache returns the empty sequence (it has no error result by its type),
and on any state it returns the currently stored snapshot unchanged. -/
theorem provideDetectors_empty_and_current :
    ProvideDetectors newDynamic = [] ∧
    ∀ s : DynamicState, ProvideDetectors s = s.detectors :=
  ⟨rfl, fun _ => rfl⟩

end AngularProvider

namespace ExportHelper

theorem addLoop_stops_at_invalid (env : AddEnv) (ch : CommitHelper)
    (bad : CommitBody) (rest : List CommitBody)
    (hbad : hasPrefixStr bad.fpath ch.orgDir = false) :
    ∀ (pre : List CommitBody) (fs : FsState),
      (∀ b ∈ pre, hasPrefixStr b.fpath ch.orgDir = true ∧
        env.mkdirAll b.fpath = none ∧ env.writeFile b.fpath b.body = none ∧
        env.workAdd (b.fpath.drop (ch.workDir.length + 1)) = none) →
      addLoop env ch (pre ++ bad :: rest) fs =
        (some "invalid path, must be within the root folder",
         ⟨fs.written ++ pre.map (fun b => (b.fpath, b.body)), fs.commits⟩) := by
  intro pre
  induction pre with
  | nil =>
    intro fs _
    simp [addLoop, hbad]
  | cons p t ih =>
    intro fs hpre
    obtain ⟨h1, h2, h3, h4⟩ := hpre p (List.mem_cons_self p t)
    have ih' := ih ⟨fs.written ++ [(p.fpath, p.body)], fs.commits⟩
      (fun b hb => hpre b (List.mem_cons_of_mem p hb))
    simp [addLoop, h1, h2, h3, h4, ih']

/-- C10: when some entry of the commit body has a path outside the org
directory and every earlier entry is valid and its filesystem and
staging calls succeed, `add` returns the "invalid path" error; the files
of the earlier entries have been written, the offending entry's file has
not, and no commit was made. -/
theorem add_invalid_path_stops (env : AddEnv) (ch : CommitHelper)
    (opts : CommitOptions) (fs : FsState) (pre : List CommitBody)
    (bad : CommitBody) (rest : List CommitBody)
    (hbody : opts.body = pre ++ bad :: rest)
    (hpre : ∀ b ∈ pre, hasPrefixStr b.fpath ch.orgDir = true ∧
      env.mkdirAll b.fpath = none ∧ env.writeFile b.fpath b.body = none ∧
      env.workAdd (b.fpath.drop (ch.workDir.length + 1)) = none)
    (hbad : hasPrefixStr bad.fpath ch.orgDir = false) :
    add env ch opts fs =
      (some "invalid path, must be within the root folder",
       ⟨fs.written ++ pre.map (fun b => (b.fpath, b.body)), fs.commits⟩) := by
  have hl := addLoop_stops_at_invalid env ch bad rest hbad pre fs hpre
  simp [add, hbody, hl]

theorem add_invalid_path_stops_witness :
    add ⟨fun _ => none, fun _ _ => none, fun _ => none, none, fun _ => none⟩
        ⟨"/work/org_1", "/work", []⟩
        ⟨[⟨"/work/org_1/a.json", "A"⟩, ⟨"/elsewhere/b.json", "B"⟩], 0, 1, "export"⟩
        ⟨[], []⟩
      = (some "invalid path, must be within the root folder",
         ⟨[("/work/org_1/a.json", "A")], []⟩) :=
  add_invalid_path_stops
    ⟨fun _ => none, fun _ _ => none, fun _ => none, none, fun _ => none⟩
    ⟨"/work/org_1", "/work", []⟩
    ⟨[⟨"/work/org_1/a.json", "A"⟩, ⟨"/elsewhere/b.json", "B"⟩], 0, 1, "export"⟩
    ⟨[], []⟩ [⟨"/work/org_1/a.json", "A"⟩] ⟨"/elsewhere/b.json", "B"⟩ [] rfl
    (by intro b hb
        rcases List.mem_cons.mp hb with rfl | hb2
        · exact ⟨by decide, rfl, rfl, rfl⟩
        · simp at hb2)
    (by decide)

end ExportHelper
